import Mathlib

/-!
Shallow embedding of the TDS LLM code-deployment service
(`src/tds_virtual_ta/`): the backoff calculator, the constant-time secret
check and HTTP front door, the callback POST retry loop, the per-task
deadline, the GitHub commit loop, the data-URI attachment decoder, and the
two LLM adapters' response parsing and fallback synthesis.

Conventions: Python floats are modelled as `ℚ` (the claims are about exact
arithmetic shape, not rounding); byte strings are `List ℕ` with values
below 256; fallible Python code is modelled with `Option`/`Except`; remote
HTTP calls are oracles passed in as explicit arguments.
-/

set_option maxRecDepth 10000

/-! ## Basic character and list helpers -/

/-- ASCII whitespace, as matched by Python's `\s` and `str.strip()` for the
ASCII range used throughout the repository. -/
def isSpace (c : Char) : Bool :=
  c = ' ' || c = '\t' || c = '\n' || c = '\r' || c = '\x0b' || c = '\x0c'

/-- ASCII word character, Python's `\w` restricted to the ASCII range. -/
def isWordChar (c : Char) : Bool :=
  ('a' ≤ c && c ≤ 'z') || ('A' ≤ c && c ≤ 'Z') || ('0' ≤ c && c ≤ '9') || c = '_'

/-- Character class `[\w-]` from the regex `#([\w-]+)` that extracts element
ids from evaluation checks. -/
def isIdChar (c : Char) : Bool := isWordChar c || c = '-'

/-- Character class `[^\s=]` from the marker regex `===\s*([^\s=]+)\s*===`. -/
def isNameChar (c : Char) : Bool := !(isSpace c) && !(c = '=')

/-- Python's substring operator `pat in l`: `pat` occurs contiguously in `l`. -/
def isSubstr (pat : List Char) : List Char → Bool
  | [] => pat.isPrefixOf []
  | c :: cs => pat.isPrefixOf (c :: cs) || isSubstr pat cs

/-- Python's `s.split(sep, 1)`: split at the first occurrence of `sep`,
returning `none` when `sep` does not occur (in which case the Python
1-element unpacking raises `ValueError`). -/
def splitFirst (sep : Char) : List Char → Option (List Char × List Char)
  | [] => none
  | c :: cs =>
    if c = sep then some ([], cs)
    else
      match splitFirst sep cs with
      | none => none
      | some (l, r) => some (c :: l, r)

/-- Index of the last occurrence of `c` in the list, if any. -/
def lastIdx (c : Char) : List Char → Option ℕ
  | [] => none
  | d :: ds =>
    match lastIdx c ds with
    | some j => some (j + 1)
    | none => if d = c then some 0 else none

/-- Python `dict` assignment `m[k] = v`: update in place if the key exists,
else append, preserving insertion order. -/
def insertA (k v : String) : List (String × String) → List (String × String)
  | [] => [(k, v)]
  | (k', v') :: m => if k' = k then (k, v) :: m else (k', v') :: insertA k v m

/-- Python `dict` lookup `m.get(k)` over the association-list model. -/
def lookupA (m : List (String × String)) (k : String) : Option String :=
  match m with
  | [] => none
  | (k', v) :: m' => if k' = k then some v else lookupA m' k

/-- Python `str.strip()` over the ASCII whitespace class. -/
def stripChars (l : List Char) : List Char :=
  ((l.dropWhile isSpace).reverse.dropWhile isSpace).reverse

/-- Lexicographic comparison of char lists by code point, Python's `str <=`. -/
def charListLe : List Char → List Char → Bool
  | [], _ => true
  | _ :: _, [] => false
  | a :: as, b :: bs => if a = b then charListLe as bs else decide (a < b)

/-- Python string comparison `a <= b`. -/
def strLe (a b : String) : Bool := charListLe a.data b.data

/-- Python tuple comparison `(a1, a2) <= (b1, b2)` on string pairs. -/
def pairLe (a b : String × String) : Bool :=
  if a.1 = b.1 then strLe a.2 b.2 else strLe a.1 b.1

/-- Insert into a sorted list, keeping stability (used to model `sorted`). -/
def insertSortedBy (le : α → α → Bool) (x : α) : List α → List α
  | [] => [x]
  | y :: ys => if le x y then x :: y :: ys else y :: insertSortedBy le x ys

/-- Insertion sort modelling Python's stable `sorted`. -/
def sortBy (le : α → α → Bool) : List α → List α
  | [] => []
  | x :: xs => insertSortedBy le x (sortBy le xs)

/-- Remove duplicates keeping first occurrences, tracking already-seen
strings (Python `set` before `sorted`; the resulting sorted list is
independent of which duplicate is kept). -/
def dedupAux : List String → List String → List String
  | _, [] => []
  | seen, s :: rest =>
    if s ∈ seen then dedupAux seen rest else s :: dedupAux (s :: seen) rest

/-- Remove duplicates keeping first occurrences. -/
def dedupStrs (l : List String) : List String := dedupAux [] l

/-- Python `str.title()`: uppercase each letter that follows a non-letter,
lowercase the other letters (ASCII model). -/
def titleAux : Bool → List Char → List Char
  | _, [] => []
  | prevAlpha, c :: cs =>
    (if c.isAlpha then (if prevAlpha then c.toLower else c.toUpper) else c)
      :: titleAux c.isAlpha cs

/-- Python `s.title()`. -/
def pyTitle (s : String) : String := String.mk (titleAux false s.data)

/-- Python `s.replace("-", " ")` (single-character replacement). -/
def replaceDash (s : String) : String :=
  String.mk (s.data.map (fun c => if c = '-' then ' ' else c))

/-- Python `s.lower()` (ASCII model). -/
def toLowerStr (s : String) : String := String.mk (s.data.map Char.toLower)

/-- Membership of any of the given substrings, modelling chained
`any(word in s for word in [...])` checks. -/
def containsAny (l : List Char) (pats : List String) : Bool :=
  pats.any (fun p => isSubstr p.data l)

/-! ## utils/retry.py — backoff calculator -/

/-- Model of `exponential_backoff` in `utils/retry.py`.  Floats are modelled
as `ℚ`; the call `random.uniform(-jitter_amount, jitter_amount)` is modelled
by the explicit jitter sample `j`, which theorems constrain to
`|j| ≤ delay * 25/100` exactly as the source computes `jitter_amount`. -/
def exponential_backoff (attempt : ℕ) (base factor max_delay : ℚ)
    (jitter : Bool) (j : ℚ) : ℚ :=
  max 0 (if jitter then min (base * factor ^ attempt) max_delay + j
         else min (base * factor ^ attempt) max_delay)

/-! ## utils/security.py and main.py — secret validation and front door -/

/-- Inner loop of CPython's `hmac.compare_digest`: accumulate the bitwise OR
of the XOR of every byte pair, together with the number of byte comparisons
performed (the second component makes the absence of an early exit visible:
it never depends on the byte values). -/
def cdLoop : List ℕ → List ℕ → ℕ × ℕ
  | x :: xs, y :: ys =>
    let p := cdLoop xs ys
    (p.1 ||| (x ^^^ y), p.2 + 1)
  | _, _ => (0, 0)

/-- Whether every character of the string is ASCII (code point below 128);
CPython's `hmac.compare_digest` only accepts ASCII `str` arguments. -/
def isAsciiStr (s : String) : Bool := s.data.all (fun c => c.toNat < 128)

/-- Model of `hmac.compare_digest` on `str` arguments: when both strings are
ASCII it returns equal lengths and a zero OR-accumulator over all positions;
when either contains a non-ASCII character CPython raises
`TypeError("comparing strings with non-ASCII characters is not
supported")`, modelled as `.error ()`. -/
def compare_digest (a b : String) : Except Unit Bool :=
  if isAsciiStr a && isAsciiStr b then
    .ok (decide (a.data.length = b.data.length) &&
      decide ((cdLoop (a.data.map Char.toNat) (b.data.map Char.toNat)).1 = 0))
  else .error ()

/-- Model of `validate_secret` in `utils/security.py`: compare the provided
secret against the configured `settings.service_secret` (passed explicitly);
the `TypeError` raised by `hmac.compare_digest` on non-ASCII input
propagates to the caller. -/
def validate_secret (service_secret provided_secret : String) : Except Unit Bool :=
  compare_digest provided_secret service_secret

/-- Attachment model from `models.py`: a name and a data-URI string. -/
structure Attachment where
  name : String
  url : String
  deriving DecidableEq

/-- Task request model from `models.py` (CORRECTED version). -/
structure TaskRequest where
  email : String
  secret : String
  task : String
  round : ℕ
  nonce : String
  brief : String
  checks : List String
  evaluation_url : String
  attachments : List Attachment
  deriving DecidableEq

/-- Observable outcome of the `/api-endpoint` route in `main.py`: the HTTP
status returned and whether `background_tasks.add_task(process_task, ...)`
was reached. -/
structure EndpointResult where
  status : ℕ
  scheduled : Bool
  deriving DecidableEq

/-- Model of the `api_endpoint` handler in `main.py`: reject with 401 before
scheduling any background work unless the secret validates; an exception
raised by `validate_secret` (non-ASCII input) escapes the handler and is
turned into a 500 response by the global exception handler, also without
scheduling anything. -/
def api_endpoint (service_secret : String) (req : TaskRequest) : EndpointResult :=
  match validate_secret service_secret req.secret with
  | .ok true => ⟨200, true⟩
  | .ok false => ⟨401, false⟩
  | .error _ => ⟨500, false⟩

/-! ## worker.py — callback POST retry loop -/

/-- Observable trace of `post_to_evaluation_url`: how many POST attempts were
made, the sleeps performed between attempts (in seconds), and whether the
loop returned `True` (a 200 was received). -/
structure PostTrace where
  attempts : ℕ
  delays : List ℕ
  success : Bool
  deriving DecidableEq

/-- Loop body of `post_to_evaluation_url` in `worker.py`.  The oracle `resp`
gives attempt `i`'s outcome: `some status` for an HTTP response and `none`
for a transport failure (the `except` branch); both are retried unless the
status is 200.  `r` counts the remaining attempts. -/
def post_loop_go (resp : ℕ → Option ℕ) : ℕ → ℕ → PostTrace
  | _, 0 => ⟨0, [], false⟩
  | attempt, r + 1 =>
    if resp attempt = some 200 then ⟨1, [], true⟩
    else if r = 0 then ⟨1, [], false⟩
    else
      let t := post_loop_go resp (attempt + 1) r
      ⟨t.attempts + 1, 2 ^ attempt :: t.delays, t.success⟩

/-- Model of `post_to_evaluation_url` (`worker.py`): up to `max_retries`
attempts starting at attempt 0, with `2 ** attempt` second sleeps between
attempts. -/
def post_to_evaluation_url (resp : ℕ → Option ℕ) (max_retries : ℕ) : PostTrace :=
  post_loop_go resp 0 max_retries

/-- Scenario oracle: the callback URL answers 503 on the first two attempts
and 200 on the third. -/
def resp503 : ℕ → Option ℕ := fun i => if i < 2 then some 503 else some 200

/-! ## worker.py — per-task deadline -/

/-- Observable outcome of `process_task` under the timing model: whether the
`asyncio.TimeoutError` branch was taken (and logged), whether the callback
POST was started, and the total wall-clock seconds spent. -/
structure TaskRun where
  timedOut : Bool
  callbackAttempted : Bool
  totalTime : ℕ
  deriving DecidableEq

/-- The `timeout=570` argument of `asyncio.wait_for` in `process_task`. -/
def task_timeout : ℕ := 570

/-- Timing model of `process_task` (`worker.py`): `_process_task_internal`
takes `d_internal` seconds and runs under `asyncio.wait_for(·, 570)`; the
subsequent `post_to_evaluation_url` call takes `d_post` seconds and is NOT
under the `wait_for`.  On timeout the error is logged and the function
returns without posting. -/
def process_task (d_internal d_post : ℕ) : TaskRun :=
  if task_timeout < d_internal then ⟨true, false, task_timeout⟩
  else ⟨false, true, d_internal + d_post⟩

/-! ## github/manager.py — commit loop -/

/-- State of the repository branch tip: path-to-content map plus a commit
counter from which fresh commit SHAs are derived. -/
structure RepoState where
  files : List (String × String)
  commits : ℕ
  deriving DecidableEq

/-- Fresh commit SHA for the n-th commit. -/
def newSha (n : ℕ) : String := "sha-" ++ toString n

/-- One iteration of the `for path, content in files.items()` loop in
`GitHubManager.commit_files`: skip when the existing content is identical,
otherwise update or create the file, producing a new commit whose SHA
becomes the running `last_commit_sha`. -/
def commit_step (acc : RepoState × String) (pc : String × String) : RepoState × String :=
  match lookupA acc.1.files pc.1 with
  | some old =>
    if old = pc.2 then acc
    else (⟨insertA pc.1 pc.2 acc.1.files, acc.1.commits + 1⟩, newSha (acc.1.commits + 1))
  | none => (⟨insertA pc.1 pc.2 acc.1.files, acc.1.commits + 1⟩, newSha (acc.1.commits + 1))

/-- Model of `GitHubManager.commit_files`: fold the per-file loop over the
file set, starting from `last_commit_sha = ""`. -/
def commit_files (st : RepoState) (files : List (String × String)) : RepoState × String :=
  files.foldl commit_step (st, "")

/-! ## worker.py — data-URI attachment decoding -/

/-- The base64 alphabet, in encoding order. -/
def b64chars : List Char :=
  "ABCDEFGHIJKLMNOPQRSTUVWXYZabcdefghijklmnopqrstuvwxyz0123456789+/".data

/-- Character for the 6-bit value `n`. -/
def b64char (n : ℕ) : Char := b64chars.getD n 'A'

/-- Position of `c` in a character list, starting at index `i`. -/
def b64indexAux : List Char → ℕ → Char → Option ℕ
  | [], _, _ => none
  | d :: ds, i, c => if c = d then some i else b64indexAux ds (i + 1) c

/-- Value of a base64 alphabet character. -/
def b64index (c : Char) : Option ℕ := b64indexAux b64chars 0 c

/-- Characters kept by CPython's non-strict `binascii.a2b_base64`: alphabet
characters and the padding character; everything else is discarded. -/
def b64valid (c : Char) : Bool := (b64index c).isSome || c = '='

/-- Standard base64 encoding with padding (Python `base64.b64encode`). -/
def b64encode : List ℕ → List Char
  | [] => []
  | [a] => [b64char (a / 4), b64char (a % 4 * 16), '=', '=']
  | [a, b] => [b64char (a / 4), b64char (a % 4 * 16 + b / 16), b64char (b % 16 * 4), '=']
  | a :: b :: c :: rest =>
    b64char (a / 4) :: b64char (a % 4 * 16 + b / 16) ::
      b64char (b % 16 * 4 + c / 64) :: b64char (c % 64) :: b64encode rest

/-- Decode filtered base64 text in groups of four characters; padding ends
the data (as in `binascii.a2b_base64`), and a trailing group that is not a
full quadruple fails like CPython's "incorrect padding" error. -/
def b64decodeRun : List Char → Option (List ℕ)
  | [] => some []
  | c1 :: c2 :: c3 :: c4 :: rest =>
    if c3 = '=' ∧ c4 = '=' then
      match b64index c1, b64index c2 with
      | some x, some y => some [x * 4 + y / 16]
      | _, _ => none
    else if c4 = '=' then
      match b64index c1, b64index c2, b64index c3 with
      | some x, some y, some z => some [x * 4 + y / 16, y % 16 * 16 + z / 4]
      | _, _, _ => none
    else
      match b64index c1, b64index c2, b64index c3, b64index c4 with
      | some x, some y, some z, some w =>
        match b64decodeRun rest with
        | some bs => some ((x * 4 + y / 16) :: (y % 16 * 16 + z / 4) :: (z % 4 * 64 + w) :: bs)
        | none => none
      | _, _, _, _ => none
  | _ => none

/-- Model of `base64.b64decode` (validate=False): discard characters outside
the alphabet, then decode; `none` models the raised `binascii.Error`. -/
def b64decode (cs : List Char) : Option (List ℕ) :=
  b64decodeRun (cs.filter b64valid)

/-- UTF-8 continuation byte (`0x80`–`0xBF`). -/
def utf8Cont (b : ℕ) : Bool := 128 ≤ b && b < 192

/-- Decode one UTF-8 scalar from the front of a byte list, rejecting exactly
what CPython's strict `bytes.decode('utf-8')` rejects: bad lead bytes, bad
continuation bytes, overlong forms, surrogates, and values above U+10FFFF. -/
def utf8decodeOne : List ℕ → Option (Char × List ℕ)
  | [] => none
  | b :: rest =>
    if b < 128 then some (Char.ofNat b, rest)
    else if b < 194 then none
    else if b < 224 then
      match rest with
      | b2 :: rest2 =>
        if utf8Cont b2 then some (Char.ofNat ((b - 192) * 64 + (b2 - 128)), rest2)
        else none
      | _ => none
    else if b < 240 then
      match rest with
      | b2 :: b3 :: rest3 =>
        if utf8Cont b2 && utf8Cont b3 then
          let n := (b - 224) * 4096 + (b2 - 128) * 64 + (b3 - 128)
          if 2048 ≤ n ∧ (n < 55296 ∨ 57344 ≤ n) then some (Char.ofNat n, rest3)
          else none
        else none
      | _ => none
    else if b < 245 then
      match rest with
      | b2 :: b3 :: b4 :: rest4 =>
        if utf8Cont b2 && utf8Cont b3 && utf8Cont b4 then
          let n := (b - 240) * 262144 + (b2 - 128) * 4096 + (b3 - 128) * 64 + (b4 - 128)
          if 65536 ≤ n ∧ n < 1114112 then some (Char.ofNat n, rest4)
          else none
        else none
      | _ => none
    else none

/-- Decode a whole byte list as strict UTF-8 (fuelled; `utf8decodeOne`
consumes at least one byte per step, so fuel `= length` always suffices). -/
def utf8decodeList : ℕ → List ℕ → Option (List Char)
  | _, [] => some []
  | 0, _ :: _ => none
  | fuel + 1, bs =>
    match utf8decodeOne bs with
    | some (c, rest) =>
      match utf8decodeList fuel rest with
      | some cs => some (c :: cs)
      | none => none
    | none => none

/-- Model of strict `bytes.decode('utf-8')`. -/
def utf8decode (bs : List ℕ) : Option String :=
  match utf8decodeList bs.length bs with
  | some cs => some (String.mk cs)
  | none => none

/-- Lowercase hexadecimal digits. -/
def hexDigitsList : List Char := "0123456789abcdef".data

/-- Two lowercase hex digits of a byte. -/
def byteToHex (b : ℕ) : List Char :=
  [hexDigitsList.getD (b / 16) '0', hexDigitsList.getD (b % 16) '0']

/-- Model of Python `bytes.hex()`: lowercase hex of every byte. -/
def bytesToHex (bs : List ℕ) : String := String.mk ((bs.map byteToHex).flatten)

/-- UTF-8 encoding of one scalar value (used by the percent-decoding branch). -/
def utf8EncodeChar (c : Char) : List ℕ :=
  let n := c.toNat
  if n < 128 then [n]
  else if n < 2048 then [192 + n / 64, 128 + n % 64]
  else if n < 65536 then [224 + n / 4096, 128 + n / 64 % 64, 128 + n % 64]
  else [240 + n / 262144, 128 + n / 4096 % 64, 128 + n / 64 % 64, 128 + n % 64]

/-- Value of a hexadecimal digit (either case), if any. -/
def hexVal (c : Char) : Option ℕ :=
  if '0' ≤ c ∧ c ≤ '9' then some (c.toNat - 48)
  else if 'a' ≤ c ∧ c ≤ 'f' then some (c.toNat - 87)
  else if 'A' ≤ c ∧ c ≤ 'F' then some (c.toNat - 55)
  else none

/-- Byte-level model of `urllib.parse.unquote`: `%XX` becomes a byte, an
invalid escape is kept literally, other characters contribute their UTF-8
bytes. -/
def percentDecodeBytes : List Char → List ℕ
  | [] => []
  | '%' :: a :: b :: rest2 =>
    (match hexVal a, hexVal b with
     | some x, some y => (x * 16 + y) :: percentDecodeBytes rest2
     | _, _ => 37 :: percentDecodeBytes (a :: b :: rest2))
  | '%' :: rest => 37 :: percentDecodeBytes rest
  | c :: rest => utf8EncodeChar c ++ percentDecodeBytes rest
termination_by l => l.length
decreasing_by
  all_goals simp only [List.length_cons]; omega

/-- UTF-8 decoding with `errors='replace'` (approximation: an undecodable
byte becomes U+FFFD and decoding resumes at the next byte), fuelled. -/
def utf8decodeReplaceAux : ℕ → List ℕ → List Char
  | 0, _ => []
  | _, [] => []
  | fuel + 1, b :: rest =>
    match utf8decodeOne (b :: rest) with
    | some (c, rest') => c :: utf8decodeReplaceAux fuel rest'
    | none => Char.ofNat 65533 :: utf8decodeReplaceAux fuel rest

/-- Model of `_parse_data_uri` in `worker.py`: non-`data:` strings are
returned unchanged; otherwise split at the first comma (no comma raises and
is caught, giving `""`); a `base64` header decodes the payload, preferring
UTF-8 text and falling back to lowercase hex for binary; decode failures are
caught and give `""`; other headers are percent-decoded. -/
def _parse_data_uri (data_uri : String) : String :=
  if data_uri.data = [] then ""
  else if "data:".data.isPrefixOf data_uri.data then
    match splitFirst ',' data_uri.data with
    | none => ""
    | some (header, encoded) =>
      if isSubstr "base64".data header then
        match b64decode encoded with
        | none => ""
        | some bs =>
          match utf8decode bs with
          | some s => s
          | none => bytesToHex bs
      else String.mk (utf8decodeReplaceAux (percentDecodeBytes encoded).length
        (percentDecodeBytes encoded))
  else data_uri

/-! ## llm/aipipe.py and llm/huggingface.py — `=== filename ===` parsing -/

/-- Match the regex `===\s*([^\s=]+)\s*===\s*\n` at the head of the list,
returning the captured name and the remainder after the greedily backtracked
`\s*\n` (the last newline inside the whitespace run after the closing
marker). -/
def matchMarkerAt (s : List Char) : Option (List Char × List Char) :=
  match s with
  | '=' :: '=' :: '=' :: r0 =>
    let r1 := r0.dropWhile isSpace
    let name := r1.takeWhile isNameChar
    if name = [] then none
    else
      let r2 := r1.dropWhile isNameChar
      let r3 := r2.dropWhile isSpace
      match r3 with
      | '=' :: '=' :: '=' :: r4 =>
        match lastIdx '\n' (r4.takeWhile isSpace) with
        | some j => some (name, r4.drop (j + 1))
        | none => none
      | _ => none
  | _ => none

/-- Split off the lazily matched body `(.*?)(?=\n===|$)`: everything up to
the first occurrence of `"\n==="`, or the whole remainder. -/
def bodySplit : List Char → List Char × List Char
  | [] => ([], [])
  | c :: cs =>
    if "\n===".data.isPrefixOf (c :: cs) then ([], c :: cs)
    else
      let p := bodySplit cs
      (c :: p.1, p.2)

/-- `re.findall` over the marker pattern: scan left to right, emit
`(name, body)` for each match, resume at the body's end (the zero-width
lookahead position). -/
def scanFiles : ℕ → List Char → List (List Char × List Char)
  | 0, _ => []
  | _, [] => []
  | fuel + 1, c :: cs =>
    match matchMarkerAt (c :: cs) with
    | some (name, rest) =>
      let p := bodySplit rest
      (name, p.1) :: scanFiles fuel p.2
    | none => scanFiles fuel cs

/-- Strip one leading markdown fence ```` ```lang\n ```` (regex
`^```\w*\n`, at most one occurrence since `^` only matches at the start). -/
def stripFenceStart (l : List Char) : List Char :=
  match l with
  | '`' :: '`' :: '`' :: rest =>
    match rest.dropWhile isWordChar with
    | '\n' :: r2 => r2
    | _ => l
  | _ => l

/-- Strip one trailing ``"\n```"`` (regex `\n```$`). -/
def stripFenceEnd (l : List Char) : List Char :=
  match l.reverse with
  | '`' :: '`' :: '`' :: '\n' :: rrest => rrest.reverse
  | _ => l

/-- Model of `AIPipeLLMAdapter._parse_files_from_response`: find all marker
blocks, strip each body and remove markdown fences, and build the `files`
dict. -/
def parse_files_aipipe (content : String) : List (String × String) :=
  (scanFiles content.data.length content.data).foldl
    (fun m p =>
      insertA (String.mk p.1) (String.mk (stripFenceEnd (stripFenceStart (stripChars p.2)))) m)
    []

/-- Model of `HuggingFaceLLMAdapter._parse_files_from_response`: the same
scan without fence removal. -/
def parse_files_hf (content : String) : List (String × String) :=
  (scanFiles content.data.length content.data).foldl
    (fun m p => insertA (String.mk p.1) (String.mk (stripChars p.2)) m) []

/-! ## llm/prompts.py — MIT license text -/

/-- Modelled from the spec: `get_mit_license` is defined in
`llm/prompts.py`, whose tail is truncated in the available sources; §4.3
step 5 of the spec describes it as "a fixed MIT license text", so it is
modelled as a fixed, non-empty MIT license string. -/
def get_mit_license : String :=
  "MIT License\n\nCopyright (c) 2024 TDS Project\n\nPermission is hereby granted, free of charge, to any person obtaining a copy of this software and associated documentation files (the \"Software\"), to deal in the Software without restriction, including without limitation the rights to use, copy, modify, merge, publish, distribute, sublicense, and/or sell copies of the Software.\n\nTHE SOFTWARE IS PROVIDED \"AS IS\", WITHOUT WARRANTY OF ANY KIND.\n"

/-! ## llm/aipipe.py — fallback HTML synthesis -/

/-- Scan for `#`-prefixed identifier runs (fuelled; each step consumes at
least one character, so fuel `= length` suffices). -/
def extractIdsAux : ℕ → List Char → List (List Char)
  | 0, _ => []
  | _, [] => []
  | fuel + 1, '#' :: cs =>
    let run := cs.takeWhile isIdChar
    if run = [] then extractIdsAux fuel cs
    else run :: extractIdsAux fuel (cs.dropWhile isIdChar)
  | fuel + 1, _ :: cs => extractIdsAux fuel cs

/-- `re.findall(r'#([\w-]+)', check)`: every `#`-prefixed identifier run. -/
def extractIds (l : List Char) : List (List Char) := extractIdsAux l.length l

/-- `sorted(element_ids)` where `element_ids` is the set of ids extracted
from every check (`AIPipeLLMAdapter._generate_fallback_html`). -/
def aipipe_sorted_ids (checks : List String) : List String :=
  sortBy strLe (dedupStrs
    (checks.foldr (fun ch acc => (extractIds ch.data).map String.mk ++ acc) []))

/-- One generated element line of `AIPipeLLMAdapter._generate_fallback_html`,
following the source's `if/elif` substring chain. -/
def aipipe_element_html (eid : String) : String :=
  if isSubstr "input".data eid.data || isSubstr "num".data eid.data then
    "            <input type=\"number\" id=\"" ++ eid ++ "\" class=\"form-control mb-2\" placeholder=\"" ++ eid ++ "\">\n"
  else if isSubstr "button".data eid.data || isSubstr "calculate".data eid.data || isSubstr "submit".data eid.data then
    "            <button id=\"" ++ eid ++ "\" class=\"btn btn-primary mb-2\">" ++ pyTitle (replaceDash eid) ++ "</button>\n"
  else if isSubstr "select".data eid.data || isSubstr "picker".data eid.data || isSubstr "filter".data eid.data then
    "            <select id=\"" ++ eid ++ "\" class=\"form-select mb-2\">\n                <option value=\"\">Select...</option>\n            </select>\n"
  else
    "            <div id=\"" ++ eid ++ "\" class=\"mb-2\">Result</div>\n"

/-- Template text of the AIPipe fallback page before `{brief}`. -/
def aipipeHtmlPre : String :=
  "<!DOCTYPE html>\n<html lang=\"en\">\n<head>\n    <meta charset=\"UTF-8\">\n    <meta name=\"viewport\" content=\"width=device-width, initial-scale=1.0\">\n    <title>Generated Application</title>\n    <link href=\"https://cdn.jsdelivr.net/npm/bootstrap@5.3.0/dist/css/bootstrap.min.css\" rel=\"stylesheet\">\n    <style>\n        body \x7b\n            padding: 2rem;\n            background: linear-gradient(135deg, #667eea 0%, #764ba2 100%);\n            min-height: 100vh;\n        \x7d\n        .container \x7b\n            max-width: 800px;\n        \x7d\n        .card \x7b\n            border: none;\n            border-radius: 15px;\n            box-shadow: 0 10px 30px rgba(0,0,0,0.2);\n        \x7d\n    </style>\n</head>\n<body>\n    <div class=\"container\">\n        <div class=\"card p-4 bg-white\">\n            <h1 class=\"mb-4\">Application</h1>\n            <p class=\"lead\">"

/-- Template text of the AIPipe fallback page between `{brief}` and
`{elements_html}`. -/
def aipipeHtmlMid : String :=
  "</p>\n            <div class=\"mt-4\">\n"

/-- Template text of the AIPipe fallback page after `{elements_html}`. -/
def aipipeHtmlPost : String :=
  "\n            </div>\n        </div>\n    </div>\n    <script>\n        console.log(\x27Application loaded\x27);\n        \n        // Add basic event listeners\n        document.querySelectorAll(\x27button\x27).forEach(btn => \x7b\n            btn.addEventListener(\x27click\x27, function() \x7b\n                console.log(\x27Button clicked:\x27, this.id);\n            \x7d);\n        \x7d);\n    </script>\n</body>\n</html>"

/-- Model of `AIPipeLLMAdapter._generate_fallback_html`. -/
def _generate_fallback_html (brief : String) (checks : List String) : String :=
  aipipeHtmlPre ++ brief ++ aipipeHtmlMid ++
    String.join ((aipipe_sorted_ids checks).map aipipe_element_html) ++ aipipeHtmlPost

/-- Model of `AIPipeLLMAdapter._generate_fallback_readme`. -/
def _generate_fallback_readme (brief : String) : String :=
  "# Generated Application\n\n## Summary\n" ++ brief ++ "\n\n## Features\n- Responsive design with Bootstrap 5\n- Clean user interface\n- Modern styling\n\n## Setup\nNo build steps required. This is a static HTML application.\n\n## Usage\n1. Open `index.html` in a web browser\n2. Or visit the GitHub Pages URL\n\n## Code Explanation\n- **index.html**: Main application file with embedded CSS and JavaScript\n- Uses Bootstrap 5 from CDN for styling\n- Vanilla JavaScript for interactivity\n\n## License\nThis project is licensed under the MIT License - see the LICENSE file for details.\n"

/-! ## llm models and the AIPipe generate loop -/

/-- `LLMGenerationResponse` from `models.py` (the float `generation_time`
field carries no claim-relevant information and is omitted). -/
structure LLMGenerationResponse where
  index_html : String
  readme_md : String
  license_text : String
  additional_files : List (String × String)
  model_used : String
  deriving DecidableEq

/-- File parsing and mandatory-file completion performed by
`AIPipeLLMAdapter._generate_with_model` after a successful remote call
returning `content`. -/
def aipipe_build_response (content brief : String) (checks : List String)
    (model_name : String) : LLMGenerationResponse :=
  let files := parse_files_aipipe content
  { index_html := (lookupA files "index.html").getD (_generate_fallback_html brief checks)
    readme_md := (lookupA files "README.md").getD (_generate_fallback_readme brief)
    license_text := (lookupA files "LICENSE").getD get_mit_license
    additional_files := files.filter
      (fun p => p.1 != "index.html" && p.1 != "README.md" && p.1 != "LICENSE")
    model_used := model_name }

/-- `AIPipeLLMAdapter.AVAILABLE_MODELS`. -/
def AVAILABLE_MODELS : List String :=
  ["openai/gpt-4-turbo", "openai/gpt-4o-mini", "anthropic/claude-3-5-sonnet",
   "google/gemini-pro-1.5", "meta-llama/llama-3.1-70b-instruct"]

/-- `models_to_try[:3]` from `AIPipeLLMAdapter.generate_application`. -/
def models_to_try (model : String) : List String :=
  (model :: AVAILABLE_MODELS.filter (fun m => m != model)).take 3

/-- Model of `AIPipeLLMAdapter._generate_fallback_response`: the complete
offline response, tagged with the sentinel model name. -/
def _generate_fallback_response (brief : String) (checks : List String) :
    LLMGenerationResponse :=
  { index_html := _generate_fallback_html brief checks
    readme_md := _generate_fallback_readme brief
    license_text := get_mit_license
    additional_files := []
    model_used := "fallback" }

/-- The `for model_name in models_to_try[:3]` loop of
`AIPipeLLMAdapter.generate_application`: `f m` is the outcome of
`_generate_with_model(request, m)` (including its internal retry); any
exception falls through to the next model. -/
def aipipe_try_models (f : String → Except String LLMGenerationResponse)
    (brief : String) (checks : List String) : List String → LLMGenerationResponse
  | [] => _generate_fallback_response brief checks
  | m :: ms =>
    match f m with
    | .ok r => r
    | .error _ => aipipe_try_models f brief checks ms

/-- Model of `AIPipeLLMAdapter.generate_application`. -/
def aipipe_generate_application (f : String → Except String LLMGenerationResponse)
    (model brief : String) (checks : List String) : LLMGenerationResponse :=
  aipipe_try_models f brief checks (models_to_try model)

/-! ## llm/huggingface.py — adapter -/

/-- The `(message, provider, model)` payload of `LLMGenerationError`. -/
structure LLMGenerationErrorInfo where
  message : String
  provider : String
  model : String
  deriving DecidableEq

/-- Model of `HuggingFaceLLMAdapter._determine_element_type`. -/
def _determine_element_type (elem_id context : String) : String :=
  let eid := (toLowerStr elem_id).data
  let ctx := context.data
  if containsAny ctx ["number", "calculate", "sum", "total"] then "number"
  else if containsAny ctx ["email", "mail"] then "email"
  else if containsAny ctx ["password", "pwd"] then "password"
  else if containsAny ctx ["date", "calendar"] then "date"
  else if containsAny ctx ["color", "colour"] then "color"
  else if containsAny eid ["button", "submit", "send"] then "button"
  else if containsAny eid ["select", "dropdown", "picker"] then "select"
  else if containsAny eid ["text", "area", "message"] then "textarea"
  else if containsAny ctx ["input"] then "text"
  else "div"

/-- Model of `HuggingFaceLLMAdapter._create_html_element`. -/
def _create_html_element (elem_id element_type : String) : String :=
  if element_type = "button" then
    "            <button id=\"" ++ elem_id ++ "\" class=\"btn btn-primary mb-3\">" ++ pyTitle (replaceDash elem_id) ++ "</button>\n"
  else if element_type = "select" then
    "            <select id=\"" ++ elem_id ++ "\" class=\"form-select mb-3\"><option value=\"\">Select an option...</option></select>\n"
  else if element_type = "textarea" then
    "            <textarea id=\"" ++ elem_id ++ "\" class=\"form-control mb-3\" rows=\"3\" placeholder=\"Enter text...\"></textarea>\n"
  else if element_type = "div" then
    "            <div id=\"" ++ elem_id ++ "\" class=\"alert alert-light mb-3\">Output will appear here</div>\n"
  else
    "            <input type=\"" ++ element_type ++ "\" id=\"" ++ elem_id ++ "\" class=\"form-control mb-3\" placeholder=\"Enter " ++ element_type ++ "...\">\n"

/-- The `elements_info` list of
`HuggingFaceLLMAdapter._generate_fallback_html`: one `(id, type)` pair per
id occurrence in each check (duplicates kept). -/
def hf_elements_info (checks : List String) : List (String × String) :=
  checks.foldr (fun check acc =>
    (extractIds check.data).map (fun eid =>
      (String.mk eid, _determine_element_type (String.mk eid) (toLowerStr check))) ++ acc) []

/-- Template text of the HuggingFace fallback page before `{brief}`. -/
def hfHtmlPre : String :=
  "<!DOCTYPE html>\n<html lang=\"en\">\n<head>\n    <meta charset=\"UTF-8\">\n    <meta name=\"viewport\" content=\"width=device-width, initial-scale=1.0\">\n    <title>Dynamic Web Application</title>\n    <link href=\"https://cdn.jsdelivr.net/npm/bootstrap@5.3.0/dist/css/bootstrap.min.css\" rel=\"stylesheet\">\n    <style>\n        body \x7b \n            padding: 2rem; \n            background: #f8f9fa; \n            min-height: 100vh; \n        \x7d\n        .container \x7b \n            max-width: 800px; \n        \x7d\n        .card \x7b \n            border: none; \n            border-radius: 15px; \n            box-shadow: 0 5px 15px rgba(0,0,0,0.1); \n        \x7d\n        .form-control:focus, .form-select:focus \x7b \n            box-shadow: 0 0 0 0.2rem rgba(0,123,255,0.25); \n        \x7d\n    </style>\n</head>\n<body>\n    <div class=\"container\">\n        <div class=\"card p-4 bg-white\">\n            <h1 class=\"h3 mb-4\">Web Application</h1>\n            <p class=\"lead mb-4\">"

/-- Template text of the HuggingFace fallback page between `{brief}` and
`{elements_html}`. -/
def hfHtmlMid : String :=
  "</p>\n            <div class=\"dynamic-elements\">\n"

/-- Template text of the HuggingFace fallback page after `{elements_html}`. -/
def hfHtmlPost : String :=
  "\n            </div>\n        </div>\n    </div>\n    <script>\n        // Generic event handlers\n        document.addEventListener(\x27DOMContentLoaded\x27, function() \x7b\n            // Handle button clicks\n            document.querySelectorAll(\x27button\x27).forEach(btn => \x7b\n                btn.addEventListener(\x27click\x27, (e) => \x7b\n                    console.log(\x27Button clicked:\x27, e.target.id);\n                \x7d);\n            \x7d);\n\n            // Handle input changes\n            document.querySelectorAll(\x27input, select, textarea\x27).forEach(input => \x7b\n                input.addEventListener(\x27change\x27, (e) => \x7b\n                    console.log(\x27Input changed:\x27, e.target.id, e.target.value);\n                \x7d);\n            \x7d);\n        \x7d);\n    </script>\n</body>\n</html>"

/-- Model of `HuggingFaceLLMAdapter._generate_fallback_html`. -/
def hf_generate_fallback_html (brief : String) (checks : List String) : String :=
  hfHtmlPre ++ brief ++ hfHtmlMid ++
    String.join ((sortBy pairLe (hf_elements_info checks)).map
      (fun p => _create_html_element p.1 p.2)) ++ hfHtmlPost

/-- Model of `HuggingFaceLLMAdapter._generate_fallback_readme`. -/
def hf_generate_fallback_readme (brief : String) : String :=
  "# Generated Application\n\n## Description\n" ++ brief ++ "\n\n## Usage\nOpen `index.html` in a web browser.\n\n## License\nMIT License\n"

/-- File parsing and mandatory-file completion done by
`HuggingFaceLLMAdapter.generate_application` on a successful remote call. -/
def hf_build_response (content brief : String) (checks : List String)
    (model : String) : LLMGenerationResponse :=
  let files := parse_files_hf content
  { index_html := (lookupA files "index.html").getD (hf_generate_fallback_html brief checks)
    readme_md := (lookupA files "README.md").getD (hf_generate_fallback_readme brief)
    license_text := (lookupA files "LICENSE").getD get_mit_license
    additional_files := []
    model_used := model }

/-- Model of `HuggingFaceLLMAdapter.generate_application`: `callResult` is
the outcome of the remote inference call (`.error e` for an `httpx.HTTPError`
with message `e`, `.ok content` for the extracted text); HTTP errors and
empty content raise `LLMGenerationError` (the `.error` result). -/
def hf_generate_application (callResult : Except String String)
    (brief : String) (checks : List String) (model : String) :
    Except LLMGenerationErrorInfo LLMGenerationResponse :=
  match callResult with
  | .error e =>
    if isSubstr "503".data e.data then
      .error ⟨"Model is loading, try again in a minute", "HuggingFace", model⟩
    else
      .error ⟨"API request failed: " ++ e, "HuggingFace", model⟩
  | .ok content =>
    if content = "" then
      .error ⟨"Empty response from HuggingFace", "HuggingFace", model⟩
    else .ok (hf_build_response content brief checks model)

/-! # Theorems -/

/-! ## Generic helper lemmas -/

/-- Bitwise OR of naturals is zero exactly when both are. -/
theorem nat_lor_eq_zero_iff (x y : ℕ) : x ||| y = 0 ↔ x = 0 ∧ y = 0 := by
  constructor
  · intro h
    have hx : ∀ i, x.testBit i = false := by
      intro i
      have := congrArg (fun n => Nat.testBit n i) h
      simp [Nat.testBit_or] at this
      exact this.1
    have hy : ∀ i, y.testBit i = false := by
      intro i
      have := congrArg (fun n => Nat.testBit n i) h
      simp [Nat.testBit_or] at this
      exact this.2
    exact ⟨Nat.eq_of_testBit_eq (fun i => by simp [hx i]),
           Nat.eq_of_testBit_eq (fun i => by simp [hy i])⟩
  · rintro ⟨rfl, rfl⟩; simp

/-- `Char.toNat` is injective. -/
theorem char_toNat_injective : Function.Injective Char.toNat := by
  intro a b h
  exact Char.eq_of_val_eq (UInt32.ext h)

/-- The OR-accumulator of `cdLoop` is zero iff the two equal-length byte
lists are equal. -/
theorem cdLoop_fst_eq_zero :
    ∀ xs ys : List ℕ, xs.length = ys.length → ((cdLoop xs ys).1 = 0 ↔ xs = ys) := by
  intro xs
  induction xs with
  | nil =>
    intro ys h
    cases ys with
    | nil => simp [cdLoop]
    | cons y ys => simp at h
  | cons x xs ih =>
    intro ys h
    cases ys with
    | nil => simp at h
    | cons y ys =>
      simp only [List.length_cons, Nat.add_right_cancel_iff] at h
      simp only [cdLoop, nat_lor_eq_zero_iff, Nat.xor_eq_zero, List.cons.injEq]
      rw [ih ys h]
      tauto

/-- `cdLoop` performs exactly one comparison per position: its step count
equals the common length and does not depend on the byte values. -/
theorem cdLoop_steps :
    ∀ xs ys : List ℕ, xs.length = ys.length → (cdLoop xs ys).2 = xs.length := by
  intro xs
  induction xs with
  | nil =>
    intro ys h
    cases ys with
    | nil => simp [cdLoop]
    | cons y ys => simp at h
  | cons x xs ih =>
    intro ys h
    cases ys with
    | nil => simp at h
    | cons y ys =>
      simp only [List.length_cons, Nat.add_right_cancel_iff] at h
      simp only [cdLoop, List.length_cons, Nat.add_right_cancel_iff]
      exact ih ys h

/-! ## C3 — backoff calculator -/

/-- Claim C3, counterexample: at `attempt = 0`, `base = 2`, `factor = 2`,
`cap = 1` with jitter enabled, the jitter sample `1/4` is within the
`±25%` range the source draws from, yet the returned delay is `5/4 > cap`,
so the delay is not always in `[0, cap]`. -/
theorem c3_backoff_jitter_counterexample :
    exponential_backoff 0 2 2 1 true (1/4) = 5/4 ∧
    |(1/4 : ℚ)| ≤ min ((2 : ℚ) * 2 ^ 0) 1 * (25/100) ∧
    ¬ exponential_backoff 0 2 2 1 true (1/4) ≤ 1 := by
  refine ⟨?_, by rw [abs_of_nonneg (by norm_num)]; norm_num, ?_⟩ <;>
    norm_num [exponential_backoff]

/-- Claim C3 (amended): for nonnegative `base`, `factor` and `cap` and a
jitter sample within the source's `±25%` range, `exponential_backoff` is
always nonnegative and at most `5/4 * cap`; with jitter disabled it equals
exactly `min (base * factor ^ attempt) cap`. -/
theorem c3_backoff_bounds (attempt : ℕ) (base factor max_delay j : ℚ) (jitter : Bool)
    (hb : 0 ≤ base) (hf : 0 ≤ factor) (hc : 0 ≤ max_delay)
    (hj : |j| ≤ min (base * factor ^ attempt) max_delay * (25/100)) :
    0 ≤ exponential_backoff attempt base factor max_delay jitter j ∧
    exponential_backoff attempt base factor max_delay jitter j ≤ 5/4 * max_delay ∧
    (jitter = false →
      exponential_backoff attempt base factor max_delay jitter j =
        min (base * factor ^ attempt) max_delay) := by
  have hpow : (0 : ℚ) ≤ base * factor ^ attempt := mul_nonneg hb (pow_nonneg hf _)
  have hd0 : (0 : ℚ) ≤ min (base * factor ^ attempt) max_delay := le_min hpow hc
  have hdc : min (base * factor ^ attempt) max_delay ≤ max_delay := min_le_right _ _
  have habs := abs_le.mp hj
  refine ⟨le_max_left _ _, ?_, ?_⟩
  · unfold exponential_backoff
    cases jitter with
    | false =>
      simp only [Bool.false_eq_true, if_false]
      rw [max_eq_right hd0]
      linarith
    | true =>
      simp only [if_true]
      rw [max_le_iff]
      constructor
      · linarith
      · linarith [habs.2]
  · intro hjit
    subst hjit
    unfold exponential_backoff
    simp only [Bool.false_eq_true, if_false]
    exact max_eq_right hd0

/-- Witness for `c3_backoff_bounds` at `attempt = 1`, `base = 1`,
`factor = 2`, `cap = 60`, jitter disabled. -/
theorem c3_backoff_bounds_witness :
    0 ≤ exponential_backoff 1 1 2 60 false 0 ∧
    exponential_backoff 1 1 2 60 false 0 ≤ 5/4 * 60 ∧
    (false = false →
      exponential_backoff 1 1 2 60 false 0 = min ((1 : ℚ) * 2 ^ 1) 60) :=
  c3_backoff_bounds 1 1 2 60 0 false (by norm_num) (by norm_num) (by norm_num)
    (by norm_num)

/-! ## C5 — per-task deadline -/

/-- Claim C5, counterexample: a run whose internal pipeline takes exactly
the 570 s deadline still attempts the callback POST, which takes another
31 s, so the whole pipeline including the callback finishes after the
deadline — the callback step is not bounded by it. -/
theorem c5_deadline_counterexample :
    process_task 570 31 = ⟨false, true, 601⟩ ∧ task_timeout < 601 := by
  constructor
  · rfl
  · decide

/-- Claim C5 (amended): the 570 s `asyncio.wait_for` deadline bounds only
the internal pipeline (steps 1–6); whenever the internal processing exceeds
it, the task is abandoned with a logged timeout and the callback POST is
never attempted, while a task that finishes internally within the deadline
always attempts the callback, taking `d_internal + d_post` seconds in total
(possibly past the deadline). -/
theorem c5_deadline_behavior (d_internal d_post : ℕ) :
    (task_timeout < d_internal →
      process_task d_internal d_post = ⟨true, false, task_timeout⟩) ∧
    (d_internal ≤ task_timeout →
      process_task d_internal d_post = ⟨false, true, d_internal + d_post⟩) ∧
    ((process_task d_internal d_post).timedOut = true →
      (process_task d_internal d_post).callbackAttempted = false) := by
  unfold process_task
  by_cases h : task_timeout < d_internal
  · simp [h]
  · simp [h]

/-- Witness for `c5_deadline_behavior`: a timed-out run and a completed run. -/
theorem c5_deadline_behavior_witness :
    process_task 571 0 = ⟨true, false, task_timeout⟩ ∧
    process_task 100 5 = ⟨false, true, 105⟩ :=
  ⟨(c5_deadline_behavior 571 0).1 (by decide),
   (c5_deadline_behavior 100 5).2.1 (by decide)⟩

/-! ## C10 — non-data-URI attachments pass through -/

/-- Claim C10: an attachment url that does not start with `data:` is
returned unchanged by `_parse_data_uri`. -/
theorem c10_non_data_uri_passthrough (s : String)
    (h : "data:".data.isPrefixOf s.data = false) : _parse_data_uri s = s := by
  unfold _parse_data_uri
  by_cases he : s.data = []
  · rw [if_pos he]
    exact (String.ext (he.trans rfl)).symm
  · rw [if_neg he, if_neg (by simp [h])]

/-- Witness for `c10_non_data_uri_passthrough` at a plain https URL. -/
theorem c10_non_data_uri_passthrough_witness :
    _parse_data_uri "https://example.com/x.png" = "https://example.com/x.png" :=
  c10_non_data_uri_passthrough _ (by decide)

/-! ## C8 — secret validation and front door -/

/-- On ASCII arguments, `validate_secret` returns exactly the decision of
string equality (in normal form for the endpoint proofs). -/
theorem validate_secret_ascii (cfg p : String)
    (hcfg : isAsciiStr cfg = true) (hp : isAsciiStr p = true) :
    validate_secret cfg p = Except.ok (decide (p = cfg)) := by
  unfold validate_secret compare_digest
  rw [if_pos (by rw [hp, hcfg]; rfl)]
  congr 1
  by_cases hpq : p = cfg
  · subst hpq
    have h0 : (cdLoop (p.data.map Char.toNat) (p.data.map Char.toNat)).1 = 0 :=
      (cdLoop_fst_eq_zero _ _ rfl).mpr rfl
    simp [h0]
  · have hrhs : decide (p = cfg) = false := by simp [hpq]
    rw [hrhs]
    by_cases hlen : (p.data.map Char.toNat).length = (cfg.data.map Char.toNat).length
    · have hz : (cdLoop (p.data.map Char.toNat) (cfg.data.map Char.toNat)).1 ≠ 0 := by
        intro h0
        have := (cdLoop_fst_eq_zero _ _ hlen).mp h0
        exact hpq (String.ext (List.map_injective_iff.mpr char_toNat_injective this))
      simp [hz]
    · have hdl : decide (p.data.length = cfg.data.length) = false := by
        apply decide_eq_false
        intro h
        apply hlen
        simpa using h
      rw [hdl, Bool.false_and]

/-- A successful `True` from `validate_secret` implies the secrets are
equal, with no assumption on the input (the non-ASCII branch never returns
`True`, it raises). -/
theorem validate_secret_ok_true (cfg p : String)
    (h : validate_secret cfg p = Except.ok true) : p = cfg := by
  unfold validate_secret compare_digest at h
  by_cases hascii : (isAsciiStr p && isAsciiStr cfg) = true
  · rw [if_pos hascii] at h
    simp only [Except.ok.injEq, Bool.and_eq_true, decide_eq_true_iff] at h
    obtain ⟨hlen, hzero⟩ := h
    have hlen' : (p.data.map Char.toNat).length = (cfg.data.map Char.toNat).length := by
      simpa using hlen
    exact String.ext (List.map_injective_iff.mpr char_toNat_injective
      ((cdLoop_fst_eq_zero _ _ hlen').mp hzero))
  · rw [if_neg hascii] at h
    simp at h

/-- Claim C8, counterexample: the provided secret "sécret" differs from the
configured "s3cret", yet the endpoint does not answer 401 — the non-ASCII
character makes `hmac.compare_digest` raise `TypeError`, which the global
exception handler surfaces as a 500 (still without scheduling any
background work), so `validate_secret` returns no Boolean at all on this
input. -/
theorem c8_non_ascii_counterexample :
    validate_secret "s3cret" "sécret" = Except.error () ∧
    api_endpoint "s3cret" ⟨"a@b.c", "sécret", "task-1", 1, "nonce", "brief", [],
      "https://cb.example", []⟩ = ⟨500, false⟩ ∧
    "sécret" ≠ "s3cret" := by
  exact ⟨rfl, rfl, by decide⟩

/-- Claim C8 (amended): for ASCII secrets, `validate_secret` returns `True`
exactly on a character-for-character match; the comparison loop touches
every byte position regardless of the contents (its step count is the
common length, so there is no early exit on the first differing character);
the endpoint answers 401 without scheduling any background work on an ASCII
mismatch; a secret with any non-ASCII character (on either side) makes
`compare_digest` raise and the endpoint answer 500, also without
scheduling; and background work is only ever scheduled for the exact
configured secret. -/
theorem c8_secret_validation (cfg : String) :
    (∀ p : String, isAsciiStr cfg = true → isAsciiStr p = true →
      (validate_secret cfg p = Except.ok true ↔ p = cfg)) ∧
    (∀ a b : List ℕ, a.length = b.length → (cdLoop a b).2 = a.length) ∧
    (∀ req : TaskRequest, isAsciiStr cfg = true → isAsciiStr req.secret = true →
      req.secret ≠ cfg → api_endpoint cfg req = ⟨401, false⟩) ∧
    (∀ req : TaskRequest, (isAsciiStr req.secret && isAsciiStr cfg) = false →
      validate_secret cfg req.secret = Except.error () ∧
      api_endpoint cfg req = ⟨500, false⟩) ∧
    (∀ req : TaskRequest, (api_endpoint cfg req).scheduled = true → req.secret = cfg) := by
  refine ⟨?_, cdLoop_steps, ?_, ?_, ?_⟩
  · intro p hcfg hp
    rw [validate_secret_ascii cfg p hcfg hp]
    constructor
    · intro h
      simpa using h
    · rintro rfl
      simp
  · intro req hcfg hsec hne
    unfold api_endpoint
    rw [validate_secret_ascii cfg req.secret hcfg hsec]
    simp [hne]
  · intro req hna
    have hv : validate_secret cfg req.secret = Except.error () := by
      unfold validate_secret compare_digest
      rw [if_neg (by rw [hna]; exact Bool.false_ne_true)]
    refine ⟨hv, ?_⟩
    unfold api_endpoint
    rw [hv]
  · intro req hsched
    cases hv : validate_secret cfg req.secret with
    | error e =>
      unfold api_endpoint at hsched
      rw [hv] at hsched
      simp at hsched
    | ok b =>
      cases b with
      | false =>
        unfold api_endpoint at hsched
        rw [hv] at hsched
        simp at hsched
      | true => exact validate_secret_ok_true cfg req.secret hv

/-- Witness for `c8_secret_validation`: the exact ASCII secret is accepted,
a one-character-off ASCII secret is rejected with 401 before scheduling,
and a non-ASCII secret yields the 500 error path. -/
theorem c8_secret_validation_witness :
    validate_secret "s3cret" "s3cret" = Except.ok true ∧
    api_endpoint "s3cret" ⟨"a@b.c", "s3cre7", "task-1", 1, "nonce", "brief", [],
      "https://cb.example", []⟩ = ⟨401, false⟩ ∧
    api_endpoint "s3cret" ⟨"a@b.c", "pässwörd", "task-1", 1, "nonce", "brief", [],
      "https://cb.example", []⟩ = ⟨500, false⟩ :=
  ⟨((c8_secret_validation "s3cret").1 "s3cret" (by decide) (by decide)).mpr rfl,
   (c8_secret_validation "s3cret").2.2.1 _ (by decide) (by decide) (by decide),
   ((c8_secret_validation "s3cret").2.2.2.1 _ (by decide)).2⟩

/-! ## C4 — callback POST retry loop -/

/-- Full characterisation of the `post_to_evaluation_url` loop starting at
an arbitrary attempt index: bounded attempts, power-of-two sleeps between
attempts, success exactly at the first 200, and exhaustion after retrying
every non-200 outcome. -/
theorem post_loop_go_spec (resp : ℕ → Option ℕ) :
    ∀ r a : ℕ,
      (post_loop_go resp a r).attempts ≤ r ∧
      (1 ≤ r → 1 ≤ (post_loop_go resp a r).attempts) ∧
      (post_loop_go resp a r).delays =
        (List.range ((post_loop_go resp a r).attempts - 1)).map (fun i => 2 ^ (a + i)) ∧
      ((post_loop_go resp a r).success = true →
        resp (a + ((post_loop_go resp a r).attempts - 1)) = some 200 ∧
        ∀ j < (post_loop_go resp a r).attempts - 1, resp (a + j) ≠ some 200) ∧
      ((post_loop_go resp a r).success = false →
        (post_loop_go resp a r).attempts = r ∧ ∀ j < r, resp (a + j) ≠ some 200) := by
  intro r
  induction r with
  | zero =>
    intro a
    simp [post_loop_go]
  | succ r ih =>
    intro a
    by_cases h200 : resp a = some 200
    · simp only [post_loop_go, if_pos h200]
      refine ⟨by omega, fun _ => le_refl 1, by simp, fun _ => ⟨by simpa using h200, by omega⟩,
        by simp⟩
    · by_cases hr : r = 0
      · subst hr
        simp only [post_loop_go, if_neg h200, if_pos rfl]
        refine ⟨le_refl 1, fun _ => le_refl 1, by simp, by simp, fun _ => ⟨rfl, ?_⟩⟩
        intro j hj
        interval_cases j
        simpa using h200
      · obtain ⟨iha, ihpos, ihd, ihs, ihf⟩ := ih (a + 1)
        have hpos : 1 ≤ (post_loop_go resp (a + 1) r).attempts := ihpos (by omega)
        simp only [post_loop_go, if_neg h200, if_neg hr]
        refine ⟨by omega, fun _ => by omega, ?_, ?_, ?_⟩
        · simp only [Nat.add_sub_cancel]
          have : (post_loop_go resp (a + 1) r).attempts =
              ((post_loop_go resp (a + 1) r).attempts - 1) + 1 := by omega
          rw [this, List.range_succ_eq_map, List.map_cons, Nat.add_zero, List.map_map]
          rw [ihd]
          congr 1
          apply List.map_congr_left
          intro i _
          simp only [Function.comp_apply]
          congr 1
          omega
        · intro hsucc
          obtain ⟨h1, h2⟩ := ihs hsucc
          constructor
          · have : a + ((post_loop_go resp (a + 1) r).attempts + 1 - 1) =
                a + 1 + ((post_loop_go resp (a + 1) r).attempts - 1) := by omega
            rw [this]
            exact h1
          · intro j hj
            rcases Nat.eq_zero_or_pos j with rfl | hjpos
            · simpa using h200
            · have : a + j = a + 1 + (j - 1) := by omega
              rw [this]
              exact h2 (j - 1) (by omega)
        · intro hfail
          obtain ⟨h1, h2⟩ := ihf hfail
          refine ⟨by omega, ?_⟩
          intro j hj
          rcases Nat.eq_zero_or_pos j with rfl | hjpos
          · simpa using h200
          · have : a + j = a + 1 + (j - 1) := by omega
            rw [this]
            exact h2 (j - 1) (by omega)

/-- Claim C4: with the fixed maximum of 5 attempts, the callback loop makes
at most 5 POSTs, sleeps exactly `2 ^ attempt` seconds between consecutive
attempts, reports success exactly at the first 200 (retrying every other
response or transport failure), returns unexceptionally on exhaustion, and
the 503/503/200 scenario makes exactly three attempts with delays 1 s and
2 s and reports success. -/
theorem c4_callback_retry_loop :
    (∀ resp : ℕ → Option ℕ,
      (post_to_evaluation_url resp 5).attempts ≤ 5 ∧
      (post_to_evaluation_url resp 5).delays =
        (List.range ((post_to_evaluation_url resp 5).attempts - 1)).map (fun i => 2 ^ i) ∧
      ((post_to_evaluation_url resp 5).success = true →
        resp ((post_to_evaluation_url resp 5).attempts - 1) = some 200 ∧
        ∀ j < (post_to_evaluation_url resp 5).attempts - 1, resp j ≠ some 200) ∧
      ((post_to_evaluation_url resp 5).success = false →
        (post_to_evaluation_url resp 5).attempts = 5 ∧ ∀ j < 5, resp j ≠ some 200)) ∧
    post_to_evaluation_url resp503 5 = ⟨3, [1, 2], true⟩ := by
  constructor
  · intro resp
    obtain ⟨h1, _, h3, h4, h5⟩ := post_loop_go_spec resp 5 0
    refine ⟨h1, by simpa using h3, ?_, ?_⟩
    · intro hs
      obtain ⟨ha, hb⟩ := h4 hs
      exact ⟨by simpa using ha, fun j hj => by simpa using hb j hj⟩
    · intro hs
      obtain ⟨ha, hb⟩ := h5 hs
      exact ⟨ha, fun j hj => by simpa using hb j hj⟩
  · decide

/-- Witness for `c4_callback_retry_loop` at the scenario oracle. -/
theorem c4_callback_retry_loop_witness :
    (post_to_evaluation_url resp503 5).attempts ≤ 5 ∧
    post_to_evaluation_url resp503 5 = ⟨3, [1, 2], true⟩ :=
  ⟨(c4_callback_retry_loop.1 resp503).1, c4_callback_retry_loop.2⟩

/-! ## C6 — commit_files idempotence -/

/-- Looking up the key just inserted gives the inserted value. -/
theorem lookupA_insertA_self (k v : String) :
    ∀ m : List (String × String), lookupA (insertA k v m) k = some v := by
  intro m
  induction m with
  | nil => simp [insertA, lookupA]
  | cons p m ih =>
    by_cases h : p.1 = k
    · simp [insertA, h, lookupA]
    · simp only [insertA]
      rw [if_neg (by exact h)]
      simp only [lookupA]
      rw [if_neg (by exact h)]
      exact ih

/-- Inserting one key leaves lookups of other keys unchanged. -/
theorem lookupA_insertA_ne (k v k' : String) (hne : k ≠ k') :
    ∀ m : List (String × String), lookupA (insertA k v m) k' = lookupA m k' := by
  intro m
  induction m with
  | nil => simp [insertA, lookupA, hne]
  | cons p m ih =>
    by_cases h : p.1 = k
    · simp only [insertA]
      rw [if_pos (by exact h)]
      simp only [lookupA]
      rw [if_neg hne, if_neg (h ▸ hne)]
    · simp only [insertA]
      rw [if_neg (by exact h)]
      simp only [lookupA]
      by_cases h' : p.1 = k'
      · rw [if_pos (by exact h'), if_pos (by exact h')]
      · rw [if_neg (by exact h'), if_neg (by exact h')]
        exact ih

/-- A fold of `commit_step` over files whose contents already match the
branch tip changes nothing and keeps the running SHA. -/
theorem commit_foldl_unchanged :
    ∀ (files : List (String × String)) (st : RepoState) (s : String),
      (∀ p c, (p, c) ∈ files → lookupA st.files p = some c) →
      files.foldl commit_step (st, s) = (st, s) := by
  intro files
  induction files with
  | nil => intro st s _; rfl
  | cons pc rest ih =>
    intro st s h
    have hstep : commit_step (st, s) pc = (st, s) := by
      have hl : lookupA st.files pc.1 = some pc.2 := h pc.1 pc.2 (by simp)
      unfold commit_step
      rw [hl]
      simp
    simp only [List.foldl_cons, hstep]
    exact ih st s (fun p c hm => h p c (by simp [hm]))

/-- Folding `commit_step` never touches files whose paths are not in the
committed set. -/
theorem commit_foldl_preserves :
    ∀ (files : List (String × String)) (st : RepoState) (s q : String),
      q ∉ files.map Prod.fst →
      lookupA (files.foldl commit_step (st, s)).1.files q = lookupA st.files q := by
  intro files
  induction files with
  | nil => intro st s q _; rfl
  | cons pc rest ih =>
    intro st s q hq
    simp only [List.map_cons, List.mem_cons] at hq
    push_neg at hq
    obtain ⟨hq1, hq2⟩ := hq
    simp only [List.foldl_cons]
    have hne : pc.1 ≠ q := fun h => hq1 h.symm
    cases hl : lookupA st.files pc.1 with
    | none =>
      have hstep : commit_step (st, s) pc =
          (⟨insertA pc.1 pc.2 st.files, st.commits + 1⟩, newSha (st.commits + 1)) := by
        unfold commit_step
        rw [hl]
      rw [hstep, ih _ _ _ hq2]
      exact lookupA_insertA_ne pc.1 pc.2 q hne st.files
    | some old =>
      by_cases he : old = pc.2
      · have hstep : commit_step (st, s) pc = (st, s) := by
          unfold commit_step
          rw [hl]
          exact if_pos he
        rw [hstep]
        exact ih _ _ _ hq2
      · have hstep : commit_step (st, s) pc =
            (⟨insertA pc.1 pc.2 st.files, st.commits + 1⟩, newSha (st.commits + 1)) := by
          unfold commit_step
          rw [hl]
          exact if_neg he
        rw [hstep, ih _ _ _ hq2]
        exact lookupA_insertA_ne pc.1 pc.2 q hne st.files

/-- After committing a file set with distinct paths, every committed file's
content is at the branch tip. -/
theorem commit_foldl_lookup :
    ∀ (files : List (String × String)) (st : RepoState) (s : String),
      (files.map Prod.fst).Nodup →
      ∀ p c, (p, c) ∈ files →
        lookupA (files.foldl commit_step (st, s)).1.files p = some c := by
  intro files
  induction files with
  | nil => intro st s _ p c hm; simp at hm
  | cons pc rest ih =>
    intro st s hnd p c hm
    simp only [List.map_cons, List.nodup_cons] at hnd
    obtain ⟨hnotin, hndrest⟩ := hnd
    simp only [List.foldl_cons]
    rcases List.mem_cons.mp hm with heq | hmrest
    · have hp : p = pc.1 := congrArg Prod.fst heq
      have hc : c = pc.2 := congrArg Prod.snd heq
      subst hp; subst hc
      rw [commit_foldl_preserves rest _ _ _ hnotin]
      cases hl : lookupA st.files pc.1 with
      | none =>
        have hstep : commit_step (st, s) pc =
            (⟨insertA pc.1 pc.2 st.files, st.commits + 1⟩, newSha (st.commits + 1)) := by
          unfold commit_step
          rw [hl]
        rw [hstep]
        exact lookupA_insertA_self pc.1 pc.2 st.files
      | some old =>
        by_cases he : old = pc.2
        · have hstep : commit_step (st, s) pc = (st, s) := by
            unfold commit_step
            rw [hl]
            exact if_pos he
          rw [hstep]
          simpa [he] using hl
        · have hstep : commit_step (st, s) pc =
              (⟨insertA pc.1 pc.2 st.files, st.commits + 1⟩, newSha (st.commits + 1)) := by
            unfold commit_step
            rw [hl]
            exact if_neg he
          rw [hstep]
          exact lookupA_insertA_self pc.1 pc.2 st.files
    · exact ih _ _ hndrest p c hmrest

/-- Claim C6: when every file's new content is identical to the content at
the branch tip, `commit_files` makes no commit and returns the empty string;
consequently committing the same (duplicate-free) file set twice returns an
empty SHA on the second call. -/
theorem c6_commit_files_idempotent :
    (∀ (st : RepoState) (files : List (String × String)),
      (∀ p c, (p, c) ∈ files → lookupA st.files p = some c) →
      commit_files st files = (st, "")) ∧
    (∀ (st : RepoState) (files : List (String × String)),
      (files.map Prod.fst).Nodup →
      (commit_files (commit_files st files).1 files).2 = "") := by
  constructor
  · intro st files h
    exact commit_foldl_unchanged files st "" h
  · intro st files hnd
    have hall : ∀ p c, (p, c) ∈ files →
        lookupA (commit_files st files).1.files p = some c := by
      intro p c hm
      exact commit_foldl_lookup files st "" hnd p c hm
    have h2 : commit_files (commit_files st files).1 files =
        ((commit_files st files).1, "") :=
      commit_foldl_unchanged files (commit_files st files).1 "" hall
    rw [h2]

/-- Witness for `c6_commit_files_idempotent` on a concrete repository. -/
theorem c6_commit_files_idempotent_witness :
    commit_files ⟨[("index.html", "x")], 1⟩ [("index.html", "x")] =
      (⟨[("index.html", "x")], 1⟩, "") ∧
    (commit_files (commit_files ⟨[], 0⟩ [("index.html", "x")]).1
      [("index.html", "x")]).2 = "" := by
  constructor
  · refine c6_commit_files_idempotent.1 _ _ ?_
    intro p c h
    simp only [List.mem_singleton, Prod.mk.injEq] at h
    obtain ⟨rfl, rfl⟩ := h
    rfl
  · exact c6_commit_files_idempotent.2 _ _ (by simp)

/-! ## C7 — data-URI decoding -/

/-- Decoding the character that encodes a 6-bit value recovers the value. -/
theorem b64index_b64char : ∀ v : ℕ, v < 64 → b64index (b64char v) = some v := by
  decide

/-- An alphabet character is never the padding character. -/
theorem b64char_ne_pad : ∀ v : ℕ, v < 64 → b64char v ≠ '=' := by
  decide

/-- Alphabet characters survive the discard filter. -/
theorem b64valid_b64char : ∀ v : ℕ, v < 64 → b64valid (b64char v) = true := by
  decide

/-- Encoded output contains only alphabet and padding characters, so the
non-strict discard filter leaves it unchanged. -/
theorem filter_b64encode : ∀ bs : List ℕ, (∀ b ∈ bs, b < 256) →
    (b64encode bs).filter b64valid = b64encode bs
  | [] => fun _ => rfl
  | [a] => fun h => by
    have ha : a < 256 := h a (by simp)
    have h1 := b64valid_b64char (a / 4) (by omega)
    have h2 := b64valid_b64char (a % 4 * 16) (by omega)
    have h3 : b64valid '=' = true := rfl
    simp [b64encode, List.filter_cons, h1, h2, h3]
  | [a, b] => fun h => by
    have ha : a < 256 := h a (by simp)
    have hb : b < 256 := h b (by simp)
    have h1 := b64valid_b64char (a / 4) (by omega)
    have h2 := b64valid_b64char (a % 4 * 16 + b / 16) (by omega)
    have h3 := b64valid_b64char (b % 16 * 4) (by omega)
    have h4 : b64valid '=' = true := rfl
    simp [b64encode, List.filter_cons, h1, h2, h3, h4]
  | a :: b :: c :: rest => fun h => by
    have ha : a < 256 := h a (by simp)
    have hb : b < 256 := h b (by simp)
    have hc : c < 256 := h c (by simp)
    have h1 := b64valid_b64char (a / 4) (by omega)
    have h2 := b64valid_b64char (a % 4 * 16 + b / 16) (by omega)
    have h3 := b64valid_b64char (b % 16 * 4 + c / 64) (by omega)
    have h4 := b64valid_b64char (c % 64) (by omega)
    have ih := filter_b64encode rest (fun x hx => h x (by simp [hx]))
    simp [b64encode, List.filter_cons, h1, h2, h3, h4, ih]

/-- Decoding an encoded byte list recovers the bytes. -/
theorem b64decodeRun_b64encode : ∀ bs : List ℕ, (∀ b ∈ bs, b < 256) →
    b64decodeRun (b64encode bs) = some bs
  | [] => fun _ => rfl
  | [a] => fun h => by
    have ha : a < 256 := h a (by simp)
    have e1 := b64index_b64char (a / 4) (by omega)
    have e2 := b64index_b64char (a % 4 * 16) (by omega)
    show b64decodeRun [b64char (a / 4), b64char (a % 4 * 16), '=', '='] = some [a]
    simp only [b64decodeRun, if_pos (And.intro rfl rfl), e1, e2]
    simp
    all_goals omega
  | [a, b] => fun h => by
    have ha : a < 256 := h a (by simp)
    have hb : b < 256 := h b (by simp)
    have e1 := b64index_b64char (a / 4) (by omega)
    have e2 := b64index_b64char (a % 4 * 16 + b / 16) (by omega)
    have e3 := b64index_b64char (b % 16 * 4) (by omega)
    have hne3 := b64char_ne_pad (b % 16 * 4) (by omega)
    show b64decodeRun
      [b64char (a / 4), b64char (a % 4 * 16 + b / 16), b64char (b % 16 * 4), '='] = some [a, b]
    simp only [b64decodeRun,
      if_neg (fun hand : _ ∧ _ => hne3 hand.1), if_pos rfl, e1, e2, e3]
    simp
    all_goals omega
  | a :: b :: c :: rest => fun h => by
    have ha : a < 256 := h a (by simp)
    have hb : b < 256 := h b (by simp)
    have hc : c < 256 := h c (by simp)
    have e1 := b64index_b64char (a / 4) (by omega)
    have e2 := b64index_b64char (a % 4 * 16 + b / 16) (by omega)
    have e3 := b64index_b64char (b % 16 * 4 + c / 64) (by omega)
    have e4 := b64index_b64char (c % 64) (by omega)
    have hne3 := b64char_ne_pad (b % 16 * 4 + c / 64) (by omega)
    have hne4 := b64char_ne_pad (c % 64) (by omega)
    have ih := b64decodeRun_b64encode rest (fun x hx => h x (by simp [hx]))
    show b64decodeRun (b64char (a / 4) :: b64char (a % 4 * 16 + b / 16) ::
      b64char (b % 16 * 4 + c / 64) :: b64char (c % 64) :: b64encode rest) =
      some (a :: b :: c :: rest)
    simp only [b64decodeRun,
      if_neg (fun hand : _ ∧ _ => hne3 hand.1), if_neg hne4, e1, e2, e3, e4, ih]
    simp [ih]
    all_goals omega

/-- Python's `base64.b64decode` recovers exactly the bytes that were
encoded. -/
theorem b64decode_b64encode (bs : List ℕ) (h : ∀ b ∈ bs, b < 256) :
    b64decode (b64encode bs) = some bs := by
  unfold b64decode
  rw [filter_b64encode bs h, b64decodeRun_b64encode bs h]

/-- A list without the separator splits to `none`. -/
theorem splitFirst_of_not_mem (sep : Char) :
    ∀ l : List Char, sep ∉ l → splitFirst sep l = none := by
  intro l
  induction l with
  | nil => intro _; rfl
  | cons c cs ih =>
    intro h
    simp only [List.mem_cons] at h
    push_neg at h
    obtain ⟨h1, h2⟩ := h
    simp only [splitFirst]
    rw [if_neg (fun he : c = sep => h1 he.symm), ih h2]

/-- Splitting at the first separator occurrence. -/
theorem splitFirst_append (sep : Char) (r : List Char) :
    ∀ l : List Char, sep ∉ l → splitFirst sep (l ++ sep :: r) = some (l, r) := by
  intro l
  induction l with
  | nil => intro _; simp [splitFirst]
  | cons c cs ih =>
    intro h
    simp only [List.mem_cons] at h
    push_neg at h
    obtain ⟨h1, h2⟩ := h
    simp only [List.cons_append, splitFirst, List.append_eq]
    rw [if_neg (fun he : c = sep => h1 he.symm), ih h2]

/-- Evaluation of `_parse_data_uri` on a well-formed base64 data URI: it
reaches the base64 branch with exactly the encoded payload. -/
theorem parse_data_uri_base64_branch (enc : List Char) :
    _parse_data_uri (String.mk ("data:text/plain;base64,".data ++ enc)) =
      (match b64decode enc with
       | none => ""
       | some bs =>
         match utf8decode bs with
         | some s => s
         | none => bytesToHex bs) := by
  have hne : ("data:text/plain;base64,".data ++ enc) ≠ [] := by simp
  have hpre : "data:".data.isPrefixOf ("data:text/plain;base64,".data ++ enc) = true := by
    rw [List.isPrefixOf_iff_prefix]
    exact ⟨"text/plain;base64,".data ++ enc, rfl⟩
  have hsplit : splitFirst ',' ("data:text/plain;base64,".data ++ enc) =
      some ("data:text/plain;base64".data, enc) := by
    have hform : "data:text/plain;base64,".data ++ enc =
        "data:text/plain;base64".data ++ (',' :: enc) := rfl
    rw [hform]
    exact splitFirst_append ',' enc _ (by decide)
  have hsub : isSubstr "base64".data "data:text/plain;base64".data = true := by decide
  unfold _parse_data_uri
  rw [if_neg hne, if_pos hpre, hsplit]
  simp [hsub]

/-- Claim C7: a base64 data URI whose payload is valid UTF-8 decodes back to
the exact original string; a payload that is not valid UTF-8 decodes to its
exact lowercase hex; a data URI without a comma decodes to the empty string;
and an invalid base64 payload decodes to the empty string. -/
theorem c7_data_uri_decoding :
    (∀ (bs : List ℕ) (s : String), (∀ b ∈ bs, b < 256) → utf8decode bs = some s →
      _parse_data_uri ("data:text/plain;base64," ++ String.mk (b64encode bs)) = s) ∧
    (∀ bs : List ℕ, (∀ b ∈ bs, b < 256) → utf8decode bs = none →
      _parse_data_uri ("data:text/plain;base64," ++ String.mk (b64encode bs)) =
        bytesToHex bs) ∧
    (∀ uri : String, "data:".data.isPrefixOf uri.data = true → ',' ∉ uri.data →
      _parse_data_uri uri = "") ∧
    _parse_data_uri "data:text/plain;base64,a" = "" := by
  have hform : ∀ bs : List ℕ,
      ("data:text/plain;base64," ++ String.mk (b64encode bs)) =
        String.mk ("data:text/plain;base64,".data ++ b64encode bs) := fun _ => rfl
  refine ⟨?_, ?_, ?_, by rfl⟩
  · intro bs s hlt hutf
    rw [hform, parse_data_uri_base64_branch, b64decode_b64encode bs hlt]
    simp [hutf]
  · intro bs hlt hutf
    rw [hform, parse_data_uri_base64_branch, b64decode_b64encode bs hlt]
    simp [hutf]
  · intro uri hpre hmem
    unfold _parse_data_uri
    by_cases he : uri.data = []
    · rw [if_pos he]
    · rw [if_neg he, if_pos hpre, splitFirst_of_not_mem ',' uri.data hmem]

/-- Witness for `c7_data_uri_decoding`: the bytes of "hi" round-trip to
"hi", the byte 255 is not UTF-8 and decodes to "ff", and a data URI with no
comma decodes to the empty string. -/
theorem c7_data_uri_decoding_witness :
    _parse_data_uri ("data:text/plain;base64," ++ String.mk (b64encode [104, 105])) = "hi" ∧
    _parse_data_uri ("data:text/plain;base64," ++ String.mk (b64encode [255])) = "ff" ∧
    _parse_data_uri "data:text/plain;base64" = "" :=
  ⟨c7_data_uri_decoding.1 [104, 105] "hi" (by decide) (by rfl),
   (c7_data_uri_decoding.2.1 [255] (by decide) (by rfl)).trans (by rfl),
   c7_data_uri_decoding.2.2.1 "data:text/plain;base64" (by decide) (by decide)⟩

/-! ## C2 — provider fallback on total model failure -/

/-- The model loop returns the heuristic fallback when every tried model
fails. -/
theorem aipipe_try_models_all_fail (f : String → Except String LLMGenerationResponse)
    (brief : String) (checks : List String) :
    ∀ ms : List String, (∀ m ∈ ms, ∃ e, f m = .error e) →
      aipipe_try_models f brief checks ms = _generate_fallback_response brief checks := by
  intro ms
  induction ms with
  | nil => intro _; rfl
  | cons m ms ih =>
    intro h
    obtain ⟨e, he⟩ := h m (by simp)
    simp only [aipipe_try_models, he]
    exact ih (fun m' hm' => h m' (by simp [hm']))

/-- Claim C2, counterexample: the HuggingFace adapter's generate raises an
`LLMGenerationError` on a transport failure instead of returning a
sentinel-tagged fallback response. -/
theorem c2_hf_generate_raises_counterexample :
    hf_generate_application (Except.error "connection refused") "build a counter" []
      "mistralai/Mistral-7B-Instruct-v0.2" =
      Except.error ⟨"API request failed: connection refused", "HuggingFace",
        "mistralai/Mistral-7B-Instruct-v0.2"⟩ := by
  rfl

/-- Claim C2 (amended): the AIPipe adapter's generate never raises — after
exhausting its bounded candidate list (at most 3 models) it returns the
complete heuristic fallback response tagged with the sentinel model name
"fallback"; the HuggingFace adapter instead propagates the error to its
caller. -/
theorem c2_aipipe_all_models_fail (f : String → Except String LLMGenerationResponse)
    (model brief : String) (checks : List String)
    (h : ∀ m ∈ models_to_try model, ∃ e, f m = .error e) :
    aipipe_generate_application f model brief checks =
      _generate_fallback_response brief checks ∧
    (aipipe_generate_application f model brief checks).model_used = "fallback" ∧
    (models_to_try model).length ≤ 3 := by
  have h1 : aipipe_generate_application f model brief checks =
      _generate_fallback_response brief checks :=
    aipipe_try_models_all_fail f brief checks (models_to_try model) h
  refine ⟨h1, ?_, ?_⟩
  · rw [h1]
    rfl
  · exact List.length_take_le 3 _

/-- Witness for `c2_aipipe_all_models_fail` with an always-failing remote
oracle. -/
theorem c2_aipipe_all_models_fail_witness :
    aipipe_generate_application (fun _ => Except.error "offline") "openai/gpt-4-turbo"
      "build a counter" ["#count-btn exists"] =
      _generate_fallback_response "build a counter" ["#count-btn exists"] ∧
    (aipipe_generate_application (fun _ => Except.error "offline") "openai/gpt-4-turbo"
      "build a counter" ["#count-btn exists"]).model_used = "fallback" ∧
    (models_to_try "openai/gpt-4-turbo").length ≤ 3 :=
  c2_aipipe_all_models_fail _ _ _ _ (fun _ _ => ⟨"offline", rfl⟩)

/-! ## C1 — mandatory files in generation responses -/

/-- Data of a string append (definitional, stated for rewriting). -/
theorem string_data_append (s t : String) : (s ++ t).data = s.data ++ t.data := rfl

/-- The AIPipe fallback page is never empty. -/
theorem fallback_html_ne_empty (brief : String) (checks : List String) :
    _generate_fallback_html brief checks ≠ "" := by
  intro habs
  have hlen := congrArg String.length habs
  have hp : 0 < aipipeHtmlPre.length := by decide
  simp only [_generate_fallback_html, String.length_append] at hlen
  simp at hlen
  omega

/-- The AIPipe fallback README is never empty. -/
theorem fallback_readme_ne_empty (brief : String) :
    _generate_fallback_readme brief ≠ "" := by
  intro habs
  have hlen := congrArg String.length habs
  simp only [_generate_fallback_readme, String.length_append] at hlen
  simp at hlen
  exact absurd hlen.1.1 (by decide)

/-- The modelled MIT license text is not empty. -/
theorem mit_license_ne_empty : get_mit_license ≠ "" := by decide

/-- The HuggingFace fallback page is never empty. -/
theorem hf_fallback_html_ne_empty (brief : String) (checks : List String) :
    hf_generate_fallback_html brief checks ≠ "" := by
  intro habs
  have hlen := congrArg String.length habs
  have hp : 0 < hfHtmlPre.length := by decide
  simp only [hf_generate_fallback_html, String.length_append] at hlen
  simp at hlen
  omega

/-- The HuggingFace fallback README is never empty. -/
theorem hf_fallback_readme_ne_empty (brief : String) :
    hf_generate_fallback_readme brief ≠ "" := by
  intro habs
  have hlen := congrArg String.length habs
  simp only [hf_generate_fallback_readme, String.length_append] at hlen
  simp at hlen
  exact absurd hlen.1.1 (by decide)

/-- Claim C1, counterexample: the remote text `"=== index.html ===\n"`
parses to an `index.html` entry whose content is the empty string; the key
is present, so no fallback is synthesized and the returned response carries
an empty index page — the mandatory files are not always non-empty. -/
theorem c1_empty_parsed_file_counterexample :
    (aipipe_build_response "=== index.html ===\n" "demo brief" ["#count-btn exists"]
      "openai/gpt-4-turbo").index_html = "" ∧
    lookupA (parse_files_aipipe "=== index.html ===\n") "index.html" = some "" := by
  exact ⟨rfl, rfl⟩

/-- Claim C1 (amended): every generation response contains the three
mandatory fields; any of them that parsing did not produce is synthesized
from the local fallback (which is always non-empty), while a file that
parsing did produce is kept verbatim, even when its parsed content is
empty.  This holds for both adapters. -/
theorem c1_mandatory_files (content brief : String) (checks : List String) (m : String) :
    ((lookupA (parse_files_aipipe content) "index.html" = none →
       (aipipe_build_response content brief checks m).index_html =
         _generate_fallback_html brief checks ∧
       (aipipe_build_response content brief checks m).index_html ≠ "") ∧
     (∀ v, lookupA (parse_files_aipipe content) "index.html" = some v →
       (aipipe_build_response content brief checks m).index_html = v) ∧
     (lookupA (parse_files_aipipe content) "README.md" = none →
       (aipipe_build_response content brief checks m).readme_md =
         _generate_fallback_readme brief ∧
       (aipipe_build_response content brief checks m).readme_md ≠ "") ∧
     (∀ v, lookupA (parse_files_aipipe content) "README.md" = some v →
       (aipipe_build_response content brief checks m).readme_md = v) ∧
     (lookupA (parse_files_aipipe content) "LICENSE" = none →
       (aipipe_build_response content brief checks m).license_text = get_mit_license ∧
       (aipipe_build_response content brief checks m).license_text ≠ "") ∧
     (∀ v, lookupA (parse_files_aipipe content) "LICENSE" = some v →
       (aipipe_build_response content brief checks m).license_text = v)) ∧
    ((lookupA (parse_files_hf content) "index.html" = none →
       (hf_build_response content brief checks m).index_html =
         hf_generate_fallback_html brief checks ∧
       (hf_build_response content brief checks m).index_html ≠ "") ∧
     (∀ v, lookupA (parse_files_hf content) "index.html" = some v →
       (hf_build_response content brief checks m).index_html = v) ∧
     (lookupA (parse_files_hf content) "README.md" = none →
       (hf_build_response content brief checks m).readme_md =
         hf_generate_fallback_readme brief ∧
       (hf_build_response content brief checks m).readme_md ≠ "") ∧
     (∀ v, lookupA (parse_files_hf content) "README.md" = some v →
       (hf_build_response content brief checks m).readme_md = v) ∧
     (lookupA (parse_files_hf content) "LICENSE" = none →
       (hf_build_response content brief checks m).license_text = get_mit_license ∧
       (hf_build_response content brief checks m).license_text ≠ "") ∧
     (∀ v, lookupA (parse_files_hf content) "LICENSE" = some v →
       (hf_build_response content brief checks m).license_text = v)) := by
  constructor
  · refine ⟨?_, ?_, ?_, ?_, ?_, ?_⟩
    · intro h
      refine ⟨by simp [aipipe_build_response, h], ?_⟩
      simp [aipipe_build_response, h]
      exact fallback_html_ne_empty brief checks
    · intro v h
      simp [aipipe_build_response, h]
    · intro h
      refine ⟨by simp [aipipe_build_response, h], ?_⟩
      simp [aipipe_build_response, h]
      exact fallback_readme_ne_empty brief
    · intro v h
      simp [aipipe_build_response, h]
    · intro h
      refine ⟨by simp [aipipe_build_response, h], ?_⟩
      simp [aipipe_build_response, h]
      exact mit_license_ne_empty
    · intro v h
      simp [aipipe_build_response, h]
  · refine ⟨?_, ?_, ?_, ?_, ?_, ?_⟩
    · intro h
      refine ⟨by simp [hf_build_response, h], ?_⟩
      simp [hf_build_response, h]
      exact hf_fallback_html_ne_empty brief checks
    · intro v h
      simp [hf_build_response, h]
    · intro h
      refine ⟨by simp [hf_build_response, h], ?_⟩
      simp [hf_build_response, h]
      exact hf_fallback_readme_ne_empty brief
    · intro v h
      simp [hf_build_response, h]
    · intro h
      refine ⟨by simp [hf_build_response, h], ?_⟩
      simp [hf_build_response, h]
      exact mit_license_ne_empty
    · intro v h
      simp [hf_build_response, h]

/-- Witness for `c1_mandatory_files` on a remote text with no markers at
all: every mandatory file comes from the fallback synthesis and is
non-empty. -/
theorem c1_mandatory_files_witness :
    (aipipe_build_response "no markers here" "demo" [] "openai/gpt-4-turbo").index_html =
      _generate_fallback_html "demo" [] ∧
    (aipipe_build_response "no markers here" "demo" [] "openai/gpt-4-turbo").index_html ≠ "" ∧
    (hf_build_response "no markers here" "demo" [] "hf-model").license_text =
      get_mit_license := by
  refine ⟨?_, ?_, ?_⟩
  · exact ((c1_mandatory_files "no markers here" "demo" [] "openai/gpt-4-turbo").1.1 rfl).1
  · exact ((c1_mandatory_files "no markers here" "demo" [] "openai/gpt-4-turbo").1.1 rfl).2
  · exact ((c1_mandatory_files "no markers here" "demo" [] "hf-model").2.2.2.2.2.1 rfl).1

/-! ## C9 — fallback element heuristic -/

/-- The Boolean substring test agrees with the infix relation. -/
theorem isSubstr_iff_infix (pat : List Char) :
    ∀ l : List Char, isSubstr pat l = true ↔ pat <:+: l := by
  intro l
  induction l with
  | nil =>
    simp only [isSubstr, List.isPrefixOf_iff_prefix]
    exact ⟨fun h => h.isInfix, fun h => (List.infix_nil.mp h) ▸ List.prefix_refl []⟩
  | cons c cs ih =>
    simp only [isSubstr, Bool.or_eq_true, List.isPrefixOf_iff_prefix, ih,
      List.infix_cons_iff]

/-- Infixes extend to the right. -/
theorem infix_append_of_left (x y z : List Char) (h : x <:+: y) : x <:+: y ++ z := by
  obtain ⟨s, t, rfl⟩ := h
  exact ⟨s, t ++ z, by simp⟩

/-- Infixes extend to the left. -/
theorem infix_append_of_right (x y z : List Char) (h : x <:+: y) : x <:+: z ++ y := by
  obtain ⟨s, t, rfl⟩ := h
  exact ⟨z ++ s, t, by simp⟩

/-- Every member of a list of lists is an infix of its flattening. -/
theorem infix_flatten_of_mem :
    ∀ (L : List (List Char)) (x : List Char), x ∈ L → x <:+: L.flatten := by
  intro L
  induction L with
  | nil => intro x hx; simp at hx
  | cons t ts ih =>
    intro x hx
    rw [List.flatten_cons]
    rcases List.mem_cons.mp hx with rfl | hx'
    · exact infix_append_of_left x x ts.flatten (List.infix_refl x)
    · exact infix_append_of_right x ts.flatten t (ih x hx')

/-- Data of a fold of string appends. -/
theorem data_foldl_append :
    ∀ (l : List String) (a : String),
      (l.foldl (· ++ ·) a).data = a.data ++ (l.map String.data).flatten := by
  intro l
  induction l with
  | nil => intro a; simp
  | cons t ts ih =>
    intro a
    simp only [List.foldl_cons, List.map_cons, List.flatten_cons]
    rw [ih (a ++ t), string_data_append, List.append_assoc]

/-- Data of `String.join`. -/
theorem data_join (l : List String) :
    (String.join l).data = (l.map String.data).flatten := by
  unfold String.join
  rw [data_foldl_append]
  rfl

/-- Claim C9, counterexample: for the scenario-1 request the synthesized
fallback markup renders `count-btn` as a `div` output region, not as a
button — `count-btn` contains none of the substrings "input", "num",
"button", "calculate", "submit", "select", "picker", "filter". -/
theorem c9_count_btn_not_button_counterexample :
    isSubstr "<button id=\"count-btn\"".data
      (_generate_fallback_html "build a counter" ["#count-btn exists"]).data = false ∧
    isSubstr "<div id=\"count-btn\"".data
      (_generate_fallback_html "build a counter" ["#count-btn exists"]).data = true := by
  exact ⟨by decide, by decide⟩

/-- Claim C9 (amended): the scenario-1 checks produce exactly the id
`count-btn`, which the AIPipe heuristic renders as the labeled output
`div` (the classification order is: ids containing "input"/"num" become
number inputs; otherwise "button"/"calculate"/"submit" become buttons;
otherwise "select"/"picker"/"filter" become dropdowns; everything else a
labeled output region); every id extracted from the checks appears in the
markup with its generated element, and in particular an id containing
"button", "calculate" or "submit" (and neither "input" nor "num") appears
as a `<button>` element. -/
theorem c9_fallback_elements (brief : String) (checks : List String) :
    aipipe_sorted_ids ["#count-btn exists"] = ["count-btn"] ∧
    aipipe_element_html "count-btn" =
      "            <div id=\"count-btn\" class=\"mb-2\">Result</div>\n" ∧
    (∀ eid ∈ aipipe_sorted_ids checks,
      (aipipe_element_html eid).data <:+: (_generate_fallback_html brief checks).data) ∧
    (∀ eid ∈ aipipe_sorted_ids checks,
      isSubstr "input".data eid.data = false → isSubstr "num".data eid.data = false →
      (isSubstr "button".data eid.data || isSubstr "calculate".data eid.data ||
        isSubstr "submit".data eid.data) = true →
      ("            <button id=\"" ++ eid ++ "\"").data <:+:
        (_generate_fallback_html brief checks).data) := by
  have helem : ∀ eid ∈ aipipe_sorted_ids checks,
      (aipipe_element_html eid).data <:+: (_generate_fallback_html brief checks).data := by
    intro eid hmem
    have h1 : (aipipe_element_html eid).data <:+:
        (String.join ((aipipe_sorted_ids checks).map aipipe_element_html)).data := by
      rw [data_join]
      exact infix_flatten_of_mem _ _
        (List.mem_map_of_mem String.data (List.mem_map_of_mem aipipe_element_html hmem))
    show (aipipe_element_html eid).data <:+:
      (aipipeHtmlPre ++ brief ++ aipipeHtmlMid ++
        String.join ((aipipe_sorted_ids checks).map aipipe_element_html) ++
        aipipeHtmlPost).data
    rw [string_data_append, string_data_append]
    exact infix_append_of_left _ _ _ (infix_append_of_right _ _ _ h1)
  refine ⟨by decide, by rfl, helem, ?_⟩
  intro eid hmem hin hnum hbtn
  have hline : aipipe_element_html eid =
      "            <button id=\"" ++ eid ++ "\" class=\"btn btn-primary mb-2\">" ++
        pyTitle (replaceDash eid) ++ "</button>\n" := by
    unfold aipipe_element_html
    rw [if_neg (by simp [hin, hnum]), if_pos (by simp only [hbtn])]
  have hpref : ("            <button id=\"" ++ eid ++ "\"").data <+:
      (aipipe_element_html eid).data := by
    rw [hline]
    refine ⟨(" class=\"btn btn-primary mb-2\">" ++ pyTitle (replaceDash eid) ++
      "</button>\n").data, ?_⟩
    simp [string_data_append, List.append_assoc]
  exact hpref.isInfix.trans (helem eid hmem)

/-- Witness for `c9_fallback_elements`: in the scenario-1 markup the
`count-btn` output `div` element actually occurs. -/
theorem c9_fallback_elements_witness :
    ("            <div id=\"count-btn\" class=\"mb-2\">Result</div>\n").data <:+:
      (_generate_fallback_html "build a counter" ["#count-btn exists"]).data := by
  have h := (c9_fallback_elements "build a counter" ["#count-btn exists"]).2.2.1
    "count-btn" (by decide)
  have he := (c9_fallback_elements "build a counter" ["#count-btn exists"]).2.1
  rw [he] at h
  exact h
